import Mathlib

/-!
Verification development for the `simple-webscan` scan orchestration core
(`simple_webscan/scanner.py`, `simple_webscan/app.py`, `simple_webscan/state.py`).

The embedding models the module-level mutable globals of `state.py` as a
`ServerState` record threaded through the functions of `scanner.py` and the
route handlers of `app.py`.  Python exceptions become an explicit `Except`
result paired with the post-state (Python globals keep their mutations when an
exception propagates, so functions return `ServerState × Except Err α`).

External collaborators are modelled at their interfaces:
  * the SANE device layer is abstracted by a `DeviceOutcome` argument — either
    the list of page images the acquisition loop yielded, or a hardware error
    raised mid-acquisition;
  * a PDF document is its list of page images (`List Page`): `process_page`
    re-encodes each scanned image as one appended PDF page, so a saved document
    is exactly the sequence of acquired pages;
  * the scan output directory is a map from relative file name to document.
-/

/-- Abstract page-image token.  `process_page` turns each acquired image into
exactly one PDF page, preserving order, so pages can be treated atomically. -/
abbrev Page := Nat

/-- The scan output directory: relative file name → saved document. -/
abbrev FileMap := String → Option (List Page)

/-- Python `dict[k] = v` (also: writing/overwriting file `k`). -/
def mapUpdate (m : String → Option α) (k : String) (v : α) : String → Option α :=
  fun x => if x = k then some v else m x

/-- Python `dict.pop(k)` (also: `Path.unlink`).  Call sites in the source only
pop keys that are present, where popping and deleting agree with this map. -/
def mapPop (m : String → Option α) (k : String) : String → Option α :=
  fun x => if x = k then none else m x

/-! ### Path and filename model (`pathlib` as used by `scan`) -/

/-- Character test: is a path separator. -/
def isSlash (c : Char) : Bool := c = '/'

/-- Character test: is not a path separator. -/
def notSlash (c : Char) : Bool := c ≠ '/'

/-- Character test: is not the extension dot. -/
def notDot (c : Char) : Bool := c ≠ '.'

/-- Python `Path(s).resolve().name` for paths whose components are not `.` or
`..`: resolution only prepends working-directory components, which `.name`
discards, so the result is the last nonempty `/`-separated component. -/
def resolveNameL (s : List Char) : List Char :=
  ((s.reverse.dropWhile isSlash).takeWhile notSlash).reverse

/-- Python `PurePath.suffix` of a file name: the extension starting at the last
dot of the name, empty when there is no dot strictly inside the name (a
leading dot is not a suffix, nor is a trailing one).  Computed from the right:
`name.reverse.takeWhile notDot` is the reversed extension text and
`name.reverse.dropWhile notDot` starts at the last dot, if any. -/
def pySuffixL (name : List Char) : List Char :=
  match name.reverse.dropWhile notDot with
  | [] => []
  | _ :: stemRev =>
    if stemRev ≠ [] ∧ name.reverse.takeWhile notDot ≠ [] then
      '.' :: (name.reverse.takeWhile notDot).reverse
    else []

/-- Python `PurePath.with_suffix(newSuffix)` on a file name: drop the old
suffix (if any) and append the new one. -/
def pyWithSuffixL (name newSuffix : List Char) : List Char :=
  name.take (name.length - (pySuffixL name).length) ++ newSuffix

/-- A wall-clock timestamp, as consumed by `datetime.now()` formatting. -/
structure DateTime where
  year : Nat
  month : Nat
  day : Nat
  hour : Nat
  minute : Nat
  second : Nat

/-- Zero-pad to two digits (`%m`, `%d`, `%H`, `%M`, `%S`). -/
def pad2 (n : Nat) : List Char :=
  if n < 10 then '0' :: Nat.toDigits 10 n else Nat.toDigits 10 n

/-- Zero-pad to four digits (`%Y`). -/
def pad4 (n : Nat) : List Char :=
  if n < 10 then '0' :: '0' :: '0' :: Nat.toDigits 10 n
  else if n < 100 then '0' :: '0' :: Nat.toDigits 10 n
  else if n < 1000 then '0' :: Nat.toDigits 10 n
  else Nat.toDigits 10 n

/-- `f"{datetime.now():%Y-%m-%d_%H_%M_%S}"`. -/
def strftimeTs (t : DateTime) : List Char :=
  pad4 t.year ++ '-' :: pad2 t.month ++ '-' :: pad2 t.day ++ '_' ::
  pad2 t.hour ++ '_' :: pad2 t.minute ++ '_' :: pad2 t.second

/-- `scanner.py` lines 124–125: take `options.filename` when nonempty (Python
truthiness of a string), else the timestamped default; resolve the path and
keep only its base name (`target = Path(target.name)`). -/
def targetBase (filename : List Char) (now : DateTime) : List Char :=
  resolveNameL (if filename ≠ [] then filename
    else "Scan_".data ++ strftimeTs now ++ ".pdf".data)

/-- `scanner.py` lines 124–127: the base name, with a `.pdf` suffix forced by
`with_suffix(target.suffix + '.pdf')` whenever the suffix is not `.pdf`. -/
def targetNameL (filename : List Char) (now : DateTime) : List Char :=
  if pySuffixL (targetBase filename now) = ".pdf".data then targetBase filename now
  else pyWithSuffixL (targetBase filename now)
    (pySuffixL (targetBase filename now) ++ ".pdf".data)

/-- String-level wrapper for `targetNameL`. -/
def targetName (filename : String) (now : DateTime) : String :=
  ⟨targetNameL filename.data now⟩

/-- The merge loop of `add_backside` (`scanner.py` lines 174–178): zip the
enumerated frontside pages with the reversed enumerated backside pages and, for
each pair `((n, _), (o, _))`, insert frontside page `n` then backside page `o`
at the end of the result document. -/
def mergePages (front back : List Page) : List Page :=
  ((front.enum.zip back.enum.reverse).map fun p => [p.1.2, p.2.2]).flatten

/-! ### Data model (`ScannerModels.py`, `state.py`) -/

/-- `ScanOptions` (`ScannerModels.py` lines 31–36): one scan request. -/
structure ScanOptions where
  scanner : String
  resolution : Nat
  source : String
  mode : String
  filename : String := ""
deriving DecidableEq

/-- `SaneScanner` (`ScannerModels.py` lines 24–29), with the option list kept
abstract — no claim inspects it. -/
structure SaneScanner where
  device_name : String
  vendor : String
  model : String
  type_info : String
deriving DecidableEq

/-- Python exceptions raised by the embedded functions. -/
inductive Err
  /-- a SANE error raised by the device mid-acquisition inside `scan` -/
  | scanFailed
  /-- `FileExistsError("no front side defined")` in `add_backside` -/
  | noFrontSide
  /-- `KeyError` from a route handler's dict lookup -/
  | keyError
  /-- `pymupdf.open` on a path that does not exist -/
  | openFailed
  /-- `sane.init()` / `sane.get_devices()` failure during a registry refresh -/
  | refreshFailed
deriving DecidableEq

/-- What the device yields during one acquisition: either the (possibly empty)
list of pages produced before the feeder ran out, or an exception raised
mid-sequence (any partially acquired pages die with the in-memory document). -/
inductive DeviceOutcome
  | ok (pages : List Page)
  | fail
deriving DecidableEq

/-- The module-level globals of `state.py` plus the scan output directory. -/
structure ServerState where
  /-- `state.scanners` -/
  scanners : String → Option SaneScanner
  /-- `state.isBusy` -/
  isBusy : Finset String
  /-- `state.scan_list_update` -/
  scan_list_update : Bool
  /-- `state.has_front` -/
  has_front : Finset String
  /-- `state.last_scan_options` -/
  last_scan_options : String → Option ScanOptions
  /-- `state.last_scan_filenames` (values are names relative to `scandir`) -/
  last_scan_filenames : String → Option String
  /-- the scan output directory `config.scandir` -/
  files : FileMap

/-! ### Scan executor (`scanner.py`) -/

/-- `busy_device` (`scanner.py` lines 34–47): the state the wrapped function
runs in — the device name has just been added to `state.isBusy`. -/
def busyEnter (devicename : String) (st : ServerState) : ServerState :=
  { st with isBusy := insert devicename st.isBusy }

/-- `busy_device` (`scanner.py` lines 34–47): add the device to `state.isBusy`,
run the wrapped function, and remove it again in a `finally` block, so the
removal happens on every exit path, exceptional or not.  (`set.remove` would
raise only if the name were absent; the wrapped scan never removes it.) -/
def busy_device (devicename : String)
    (f : ServerState → ServerState × Except Err α) (st : ServerState) :
    ServerState × Except Err α :=
  let p := f (busyEnter devicename st)
  ({ p.1 with isBusy := p.1.isBusy.erase devicename }, p.2)

/-- `scan` (`scanner.py` lines 116–142): open the device, derive the target
name, acquire pages (`dev` abstracts the ADF loop / single-page branch), and
save iff at least one page was produced.  A device error mid-acquisition
propagates; the temp dir and the unsaved in-memory document are discarded, so
the directory is unchanged.  Returns the relative target path, or `none` when
no pages were scanned. -/
def scan (options : ScanOptions) (now : DateTime) (dev : DeviceOutcome)
    (files : FileMap) : FileMap × Except Err (Option String) :=
  match dev with
  | .fail => (files, .error .scanFailed)
  | .ok pages =>
    let target := targetName options.filename now
    if pages.length ≠ 0 then (mapUpdate files target pages, .ok (some target))
    else (files, .ok none)

/-- `perform_scan` (`scanner.py` lines 144–158): run `scan` wrapped in
`using_sane` and `busy_device` under the hardware lock; only if it returned a
path, record the request, the produced filename and the pending-frontside mark
under the globals lock. -/
def perform_scan (data : ScanOptions) (now : DateTime) (dev : DeviceOutcome)
    (st : ServerState) : ServerState × Except Err (Option String) :=
  let r := busy_device data.scanner
    (fun st1 =>
      let p := scan data now dev st1.files
      ({ st1 with files := p.1 }, p.2)) st
  match r with
  | (st2, .error e) => (st2, .error e)
  | (st2, .ok none) => (st2, .ok none)
  | (st2, .ok (some target)) =>
    ({ st2 with
        last_scan_options := mapUpdate st2.last_scan_options data.scanner data
        last_scan_filenames := mapUpdate st2.last_scan_filenames data.scanner target
        has_front := insert data.scanner st2.has_front }, .ok (some target))

/-- `add_backside` (`scanner.py` lines 160–183).  `data` is the very object
stored in `state.last_scan_options` (the only caller, the
`/scan_backside/{scanner_name}` handler, passes
`state.last_scan_options[device]`), so the assignment `data.filename = ...` is
also visible through that table; the embedding makes the aliasing explicit by
updating the table at the assignment.  After a successful backside scan the
frontside and backside documents are opened, merged only when the page counts
match, the result saved over the frontside path, the backside file unlinked
unconditionally, and the pending-frontside state cleared. -/
def add_backside (data : ScanOptions) (now : DateTime) (dev : DeviceOutcome)
    (st : ServerState) : ServerState × Except Err Unit :=
  match st.last_scan_filenames data.scanner with
  | none => (st, .error .noFrontSide)
  | some frontside_file =>
    let data' := { data with filename := frontside_file ++ "_backside.pdf" }
    let st1 := { st with
      last_scan_options := mapUpdate st.last_scan_options data.scanner data' }
    match perform_scan data' now dev st1 with
    | (st2, .error e) => (st2, .error e)
    | (st2, .ok none) => (st2, .ok ())
    | (st2, .ok (some backside_file)) =>
      match st2.files frontside_file, st2.files backside_file with
      | some front, some back =>
        let st3 :=
          if front.length ≠ back.length then st2
          else { st2 with
            files := mapUpdate st2.files frontside_file (mergePages front back) }
        let st4 := { st3 with files := mapPop st3.files backside_file }
        (({ st4 with
            has_front := st4.has_front.erase data.scanner
            last_scan_filenames := mapPop st4.last_scan_filenames data.scanner }),
          .ok ())
      | _, _ => (st2, .error .openFailed)

/-! ### Device registry refresh (`scanner.py` lines 81–101) -/

/-- The outcome of `do_list_scanners()` under `using_sane`: either the device
map produced by `list_scanners` (which logs and omits devices whose own
enumeration fails, so it does not raise), or an exception from `sane.init()` /
`sane.get_devices()`. -/
abbrev RefreshOutcome := Except Err (String → Option SaneScanner)

/-- `update_scanners` (`scanner.py` lines 81–91): run the enumeration under the
hardware lock and, if it returned, replace `state.scanners` wholesale under the
globals lock.  An exception from the enumeration propagates with the registry
untouched. -/
def update_scanners (r : RefreshOutcome) (st : ServerState) :
    ServerState × Except Err Unit :=
  match r with
  | .error e => (st, .error e)
  | .ok m => ({ st with scanners := m }, .ok ())

/-- The state `update_scanners` runs in during `update_scanlist`: the
`scan_list_update` flag has just been set. -/
def refreshingState (st : ServerState) : ServerState :=
  { st with scan_list_update := true }

/-- `update_scanlist` (`scanner.py` lines 94–101): set `scan_list_update`, call
`update_scanners`, then clear the flag.  There is no `try/finally` here: if
`update_scanners` raises, the clearing line is never reached and the flag stays
set. -/
def update_scanlist (r : RefreshOutcome) (st : ServerState) :
    ServerState × Except Err Unit :=
  match update_scanners r (refreshingState st) with
  | (st2, .error e) => (st2, .error e)
  | (st2, .ok _) => ({ st2 with scan_list_update := false }, .ok ())

/-! ### Route handlers (`app.py`) -/

/-- `reset_front`, the `POST /done/{scanner_name}` handler (`app.py` lines
149–160): look the device up in the registry (a missing name raises `KeyError`)
and discard it from `state.has_front`.  Nothing else is touched: no merge runs,
no file is read, written or deleted, and neither `last_scan_filenames` nor
`last_scan_options` is updated. -/
def reset_front (scanner_name : String) (st : ServerState) :
    ServerState × Except Err Unit :=
  match st.scanners scanner_name with
  | none => (st, .error .keyError)
  | some s => ({ st with has_front := st.has_front.erase s.device_name }, .ok ())

/-- `backside_scan`, the `POST /scan_backside/{scanner_name}` handler (`app.py`
lines 133–146): look up the device and its stored `last_scan_options` entry
(missing keys raise `KeyError`) and run `add_backside` on that very object. -/
def backside_scan (scanner_name : String) (now : DateTime) (dev : DeviceOutcome)
    (st : ServerState) : ServerState × Except Err Unit :=
  match st.scanners scanner_name with
  | none => (st, .error .keyError)
  | some s =>
    match st.last_scan_options s.device_name with
    | none => (st, .error .keyError)
    | some data => add_backside data now dev st

/-! ### Hardware-lock exclusivity model (`state.sane_lock`)

Both hardware-touching operations have the same shape: `update_scanners` runs
`do_list_scanners` inside `with state.sane_lock` (`scanner.py` lines 87–88) and
`perform_scan` runs `do_scan` inside `with state.sane_lock` (lines 150–151).
Each handler thread therefore executes `acquire; hardware work; release` for
every hardware operation, against one process-wide lock.  The transition
system below has one program counter per thread encoding that shape:
`0` = before `with state.sane_lock`, `1` = lock acquired, hardware work (the
enumeration or the scan) in flight, `2` = hardware work finished, still inside
the `with` block, `3` = after the block (from where a thread may start its
next operation). -/

namespace HwLock

/-- Thread identifiers. -/
abbrev Tid := Nat

/-- One global snapshot: each thread's position in the
`acquire; hardware; release` shape and the current holder of
`state.sane_lock`. -/
structure SysState where
  pc : Tid → Nat
  owner : Option Tid

/-- Interleaved execution: any thread may take its next enabled step.
Entering the `with state.sane_lock` block requires the lock to be free;
leaving it requires the thread to hold it; the hardware step itself is gated
only by the thread's own program structure. -/
inductive Step : SysState → SysState → Prop
  | acquire (s : SysState) (t : Tid) : s.pc t = 0 → s.owner = none →
      Step s ⟨fun u => if u = t then 1 else s.pc u, some t⟩
  | hardware (s : SysState) (t : Tid) : s.pc t = 1 →
      Step s ⟨fun u => if u = t then 2 else s.pc u, s.owner⟩
  | release (s : SysState) (t : Tid) : s.pc t = 2 → s.owner = some t →
      Step s ⟨fun u => if u = t then 3 else s.pc u, none⟩
  | restart (s : SysState) (t : Tid) : s.pc t = 3 →
      Step s ⟨fun u => if u = t then 0 else s.pc u, s.owner⟩

/-- At process start no thread has begun an operation and the lock is free. -/
def init : SysState := ⟨fun _ => 0, none⟩

/-- States the interleaved system can actually be in. -/
def Reachable (s : SysState) : Prop := Relation.ReflTransGen Step init s

/-- Thread `t` has a hardware operation (registry refresh or scan) in
flight. -/
def inHardware (s : SysState) (t : Tid) : Prop := s.pc t = 1

/-- The inductive invariant: any thread inside the `with state.sane_lock`
block is the lock's owner. -/
def LockInv (s : SysState) : Prop :=
  ∀ t, s.pc t = 1 ∨ s.pc t = 2 → s.owner = some t

end HwLock

/-! ### Helper lemmas: filename derivation -/

theorem dropWhile_eq_self_of_not (p : Char → Bool) (l : List Char)
    (h : ∀ c ∈ l, ¬ p c) : l.dropWhile p = l := by
  cases l with
  | nil => rfl
  | cons x xs => exact List.dropWhile_cons_of_neg (h x (by simp))

/-- On a slash-free path, `Path(s).resolve().name` returns the path itself. -/
theorem resolveNameL_of_noSlash (s : List Char) (h : '/' ∉ s) :
    resolveNameL s = s := by
  unfold resolveNameL
  rw [dropWhile_eq_self_of_not _ _ (by
    intro c hc hp
    simp only [isSlash, decide_eq_true_eq] at hp
    exact h (by simpa [hp] using List.mem_reverse.mp hc))]
  rw [List.takeWhile_eq_self_iff.mpr (by
    intro c hc
    simp only [notSlash, ne_eq, decide_eq_true_eq]
    intro hp
    exact h (by simpa [hp] using List.mem_reverse.mp hc))]
  exact List.reverse_reverse s

/-- The base name extracted by `resolveNameL` never contains a slash. -/
theorem noSlash_resolveNameL (s : List Char) : '/' ∉ resolveNameL s := by
  unfold resolveNameL
  intro hmem
  have := List.mem_takeWhile_imp (List.mem_reverse.mp hmem)
  simp [notSlash] at this

/-- `PurePath.suffix` of a name of the form `a ++ "." ++ b` with `a` nonempty
and `b` a nonempty dot-free extension is `"." ++ b`. -/
theorem pySuffixL_append_dot (a b : List Char) (ha : a ≠ []) (hb : b ≠ [])
    (hdot : '.' ∉ b) : pySuffixL (a ++ '.' :: b) = '.' :: b := by
  have hball : ∀ c ∈ b.reverse, notDot c = true := by
    intro c hc
    simp only [notDot, ne_eq, decide_eq_true_eq]
    intro hp
    exact hdot (by simpa [hp] using List.mem_reverse.mp hc)
  have hrev : (a ++ '.' :: b).reverse = b.reverse ++ '.' :: a.reverse := by
    simp
  unfold pySuffixL
  rw [hrev]
  rw [List.takeWhile_append_of_pos hball, List.dropWhile_append_of_pos hball]
  rw [List.takeWhile_cons_of_neg (by simp [notDot]),
    List.dropWhile_cons_of_neg (by simp [notDot])]
  simp [ha, hb]

/-- The suffix is genuinely a suffix: dropping its length from the end of the
name and re-appending it restores the name. -/
theorem take_sub_append_pySuffixL (name : List Char) :
    name.take (name.length - (pySuffixL name).length) ++ pySuffixL name = name := by
  rcases hd : name.reverse.dropWhile notDot with _ | ⟨c, stemRev⟩
  · simp [pySuffixL, hd]
  · have hc : c = '.' := by
      have := List.head?_dropWhile_not notDot name.reverse
      rw [hd] at this
      simpa [notDot] using this
    have hsplit : name.reverse.takeWhile notDot ++ c :: stemRev
        = name.reverse := by
      rw [← hd]; exact List.takeWhile_append_dropWhile _ _
    set ext := name.reverse.takeWhile notDot with hext
    have hname : name = stemRev.reverse ++ [c] ++ ext.reverse := by
      have := congrArg List.reverse hsplit
      simpa [List.reverse_append] using this.symm
    by_cases hcond : stemRev ≠ [] ∧ ext ≠ []
    · have hsuf : pySuffixL name = '.' :: ext.reverse := by
        simp only [pySuffixL, hd, ← hext]
        rw [if_pos hcond]
      have hlen : name.length = stemRev.length + 1 + ext.length := by
        rw [hname]; simp; omega
      rw [hsuf]
      have hsub : name.length - ('.' :: ext.reverse).length = stemRev.length := by
        simp [hlen]; omega
      rw [hsub, hname, hc]
      rw [List.append_assoc]
      rw [List.take_left' (by simp)]
      simp
    · have hsuf : pySuffixL name = [] := by
        simp only [pySuffixL, hd, ← hext]
        rw [if_neg hcond]
      simp [hsuf]

/-- `with_suffix(suffix + '.pdf')` appends `.pdf` and never replaces: the
result is the whole original name followed by the new tail. -/
theorem pyWithSuffixL_append (name tail : List Char) :
    pyWithSuffixL name (pySuffixL name ++ tail) = name ++ tail := by
  unfold pyWithSuffixL
  rw [← List.append_assoc, take_sub_append_pySuffixL]

/-- `PurePath.suffix` of any name ending in `"_backside.pdf"` is `".pdf"`. -/
theorem pySuffixL_backside (front : List Char) :
    pySuffixL (front ++ "_backside.pdf".data) = ".pdf".data := by
  have h : front ++ "_backside.pdf".data
      = (front ++ "_backside".data) ++ '.' :: "pdf".data := by
    rw [List.append_assoc]; rfl
  rw [h, pySuffixL_append_dot]
  · simp
  · decide
  · decide

/-- Backside names derived from a slash-free frontside name pass through the
target-name derivation unchanged: they are already base names with a `.pdf`
suffix. -/
theorem targetNameL_backside (front : List Char) (h : '/' ∉ front)
    (now : DateTime) :
    targetNameL (front ++ "_backside.pdf".data) now
      = front ++ "_backside.pdf".data := by
  have hns : '/' ∉ front ++ "_backside.pdf".data := by
    intro hm
    rcases List.mem_append.mp hm with h1 | h1
    · exact h h1
    · revert h1; decide
  have hbase : targetBase (front ++ "_backside.pdf".data) now
      = front ++ "_backside.pdf".data := by
    unfold targetBase
    rw [if_pos (by simp), resolveNameL_of_noSlash _ hns]
  unfold targetNameL
  rw [hbase, if_pos (pySuffixL_backside front)]

/-- String-level version of `targetNameL_backside`. -/
theorem targetName_backside (front : String) (h : '/' ∉ front.data)
    (now : DateTime) :
    targetName (front ++ "_backside.pdf") now = front ++ "_backside.pdf" := by
  apply String.ext
  show targetNameL (front.data ++ "_backside.pdf".data) now
    = front.data ++ "_backside.pdf".data
  exact targetNameL_backside front.data h now

/-- The derived backside name differs from the frontside name (it is strictly
longer), so writing and deleting the backside file never touches the
frontside file. -/
theorem targetName_backside_ne (front : String) (h : '/' ∉ front.data)
    (now : DateTime) :
    targetName (front ++ "_backside.pdf") now ≠ front := by
  rw [targetName_backside front h now]
  intro he
  have : (front ++ "_backside.pdf").data.length = front.data.length :=
    congrArg (fun s : String => s.data.length) he
  simp [show (front ++ "_backside.pdf").data = front.data ++ "_backside.pdf".data
    from rfl] at this

/-! ### Helper lemmas: the duplex merge order -/

/-- Reference interleaving: alternate elements of two lists pairwise. -/
def interleave2 : List Page → List Page → List Page
  | a :: as, b :: bs => a :: b :: interleave2 as bs
  | _, _ => []

theorem zip_map_pair_flatten (xs ys : List (Nat × Page)) :
    ((xs.zip ys).map fun p => [p.1.2, p.2.2]).flatten
      = interleave2 (xs.map Prod.snd) (ys.map Prod.snd) := by
  induction xs generalizing ys with
  | nil => cases ys <;> rfl
  | cons x xs ih =>
    cases ys with
    | nil => rfl
    | cons y ys => simp [interleave2, ih]

/-- The source's zip of enumerations is the plain interleaving of the
frontside with the reversed backside. -/
theorem mergePages_eq_interleave2 (front back : List Page) :
    mergePages front back = interleave2 front back.reverse := by
  unfold mergePages
  rw [zip_map_pair_flatten]
  rw [List.enum_map_snd]
  rw [List.map_reverse, List.enum_map_snd]

theorem interleave2_getElem?_even (f r : List Page) (h : f.length = r.length)
    (i : Nat) (hi : i < f.length) :
    (interleave2 f r)[2 * i]? = f[i]? := by
  induction f generalizing r i with
  | nil => simp at hi
  | cons a as ih =>
    cases r with
    | nil => simp at h
    | cons b bs =>
      cases i with
      | zero => simp [interleave2]
      | succ j =>
        have h2 : 2 * (j + 1) = (2 * j) + 1 + 1 := by omega
        rw [h2]
        simp only [interleave2, List.getElem?_cons_succ]
        exact ih bs (by simpa using h) j (by simpa using hi)

theorem interleave2_getElem?_odd (f r : List Page) (h : f.length = r.length)
    (i : Nat) (hi : i < f.length) :
    (interleave2 f r)[2 * i + 1]? = r[i]? := by
  induction f generalizing r i with
  | nil => simp at hi
  | cons a as ih =>
    cases r with
    | nil => simp at h
    | cons b bs =>
      cases i with
      | zero => simp [interleave2]
      | succ j =>
        have h2 : 2 * (j + 1) + 1 = (2 * j + 1) + 1 + 1 := by omega
        rw [h2]
        simp only [interleave2, List.getElem?_cons_succ]
        exact ih bs (by simpa using h) j (by simpa using hi)

/-- Index-level statement of the merge order: for equal page counts `N` and
`i < N`, merged page `2i` is frontside page `i` and merged page `2i+1` is
backside page `N-1-i`. -/
theorem mergePages_getElem? (front back : List Page)
    (h : front.length = back.length) (i : Nat) (hi : i < front.length) :
    (mergePages front back)[2 * i]? = front[i]?
      ∧ (mergePages front back)[2 * i + 1]? = back[back.length - 1 - i]? := by
  rw [mergePages_eq_interleave2]
  have hlen : front.length = back.reverse.length := by simpa using h
  constructor
  · exact interleave2_getElem?_even front back.reverse hlen i hi
  · rw [interleave2_getElem?_odd front back.reverse hlen i hi]
    exact List.getElem?_reverse (by omega)

/-! ### Helper lemmas: hardware-lock exclusivity -/

namespace HwLock

theorem lockInv_init : LockInv init := by
  intro t ht
  rcases ht with h | h <;> simp [init] at h

theorem lockInv_step {s s' : SysState} (hs : LockInv s) (hstep : Step s s') :
    LockInv s' := by
  cases hstep with
  | acquire t h0 howner =>
    intro v hv
    by_cases hvt : v = t
    · subst hvt; rfl
    · exfalso
      have hpc : s.pc v = 1 ∨ s.pc v = 2 := by
        simpa [hvt] using hv
      have := hs v hpc
      rw [howner] at this
      exact Option.noConfusion this
  | hardware t h1 =>
    intro v hv
    by_cases hvt : v = t
    · subst hvt
      exact hs v (Or.inl h1)
    · exact hs v (by simpa [hvt] using hv)
  | release t h2 howner =>
    intro v hv
    by_cases hvt : v = t
    · subst hvt
      exfalso
      rcases hv with h | h <;> simp at h
    · exfalso
      have hpc : s.pc v = 1 ∨ s.pc v = 2 := by
        simpa [hvt] using hv
      have := howner.symm.trans (hs v hpc)
      exact hvt (Option.some.inj this).symm
  | restart t h3 =>
    intro v hv
    by_cases hvt : v = t
    · subst hvt
      exfalso
      rcases hv with h | h <;> simp at h
    · exact hs v (by simpa [hvt] using hv)

theorem lockInv_reachable {s : SysState} (h : Reachable s) : LockInv s := by
  induction h with
  | refl => exact lockInv_init
  | tail _ hstep ih => exact lockInv_step ih hstep

end HwLock

/-! ### Helper lemmas: `perform_scan` characterizations -/

theorem perform_scan_fail (data : ScanOptions) (now : DateTime)
    (st : ServerState) :
    perform_scan data now .fail st =
      ({ st with isBusy := (insert data.scanner st.isBusy).erase data.scanner },
        .error .scanFailed) := rfl

theorem perform_scan_zero (data : ScanOptions) (now : DateTime)
    (st : ServerState) :
    perform_scan data now (.ok []) st =
      ({ st with isBusy := (insert data.scanner st.isBusy).erase data.scanner },
        .ok none) := rfl

theorem perform_scan_pages (data : ScanOptions) (now : DateTime)
    (pages : List Page) (st : ServerState) (h : pages ≠ []) :
    perform_scan data now (.ok pages) st =
      ({ st with
          isBusy := (insert data.scanner st.isBusy).erase data.scanner
          files := mapUpdate st.files (targetName data.filename now) pages
          last_scan_options := mapUpdate st.last_scan_options data.scanner data
          last_scan_filenames :=
            mapUpdate st.last_scan_filenames data.scanner
              (targetName data.filename now)
          has_front := insert data.scanner st.has_front },
        .ok (some (targetName data.filename now))) := by
  have hlen : pages.length ≠ 0 := by simpa using h
  simp only [perform_scan, busy_device, busyEnter, scan]
  rw [if_pos hlen]

/-! ### Helper lemmas: `add_backside` evaluations -/

theorem backside_name_ne (s : String) : s ++ "_backside.pdf" ≠ s := by
  intro he
  have hlen := congrArg (fun t : String => t.data.length) he
  simp [show (s ++ "_backside.pdf").data = s.data ++ "_backside.pdf".data
    from rfl] at hlen

theorem mapUpdate_self (m : String → Option α) (k : String) (v : α) :
    mapUpdate m k v k = some v := by simp [mapUpdate]

theorem mapUpdate_ne (m : String → Option α) (k : String) (v : α) (x : String)
    (h : x ≠ k) : mapUpdate m k v x = m x := by simp [mapUpdate, h]

theorem mapPop_self (m : String → Option α) (k : String) :
    mapPop m k k = none := by simp [mapPop]

theorem mapPop_ne (m : String → Option α) (k x : String) (h : x ≠ k) :
    mapPop m k x = m x := by simp [mapPop, h]

/-- Full evaluation of `add_backside` on the success path with matching page
counts: backside written then unlinked, merged document saved over the
frontside path, pending duplex state cleared. -/
theorem add_backside_eval_merge (data : ScanOptions) (now : DateTime)
    (st : ServerState) (frontname : String) (front back : List Page)
    (hfile : st.last_scan_filenames data.scanner = some frontname)
    (hslash : '/' ∉ frontname.data)
    (hfront : st.files frontname = some front)
    (hback : back ≠ [])
    (hlen : front.length = back.length) :
    add_backside data now (.ok back) st =
      ({ st with
          isBusy := (insert data.scanner st.isBusy).erase data.scanner
          has_front := (insert data.scanner st.has_front).erase data.scanner
          last_scan_options := mapUpdate
            (mapUpdate st.last_scan_options data.scanner
              ({ data with filename := frontname ++ "_backside.pdf" }))
            data.scanner ({ data with filename := frontname ++ "_backside.pdf" })
          last_scan_filenames := mapPop
            (mapUpdate st.last_scan_filenames data.scanner
              (frontname ++ "_backside.pdf")) data.scanner
          files := mapPop
            (mapUpdate (mapUpdate st.files (frontname ++ "_backside.pdf") back)
              frontname (mergePages front back))
            (frontname ++ "_backside.pdf") },
        .ok ()) := by
  have hbname := targetName_backside frontname hslash now
  have hne : frontname ≠ frontname ++ "_backside.pdf" :=
    fun he => backside_name_ne frontname he.symm
  simp only [add_backside, hfile]
  set data' : ScanOptions :=
    { data with filename := frontname ++ "_backside.pdf" } with hdata'
  set st1 : ServerState :=
    { st with last_scan_options :=
        mapUpdate st.last_scan_options data.scanner data' } with hst1
  rw [perform_scan_pages data' now back st1 hback]
  dsimp only
  rw [hbname]
  rw [mapUpdate_ne _ _ _ _ hne, hfront, mapUpdate_self]
  dsimp only
  rw [if_neg (not_not_intro hlen)]

/-- Full evaluation of `add_backside` on the success path with differing page
counts: the merge is skipped (frontside file untouched), the backside file is
still unlinked, the pending duplex state is still cleared, and no exception is
raised. -/
theorem add_backside_eval_mismatch (data : ScanOptions) (now : DateTime)
    (st : ServerState) (frontname : String) (front back : List Page)
    (hfile : st.last_scan_filenames data.scanner = some frontname)
    (hslash : '/' ∉ frontname.data)
    (hfront : st.files frontname = some front)
    (hback : back ≠ [])
    (hlen : front.length ≠ back.length) :
    add_backside data now (.ok back) st =
      ({ st with
          isBusy := (insert data.scanner st.isBusy).erase data.scanner
          has_front := (insert data.scanner st.has_front).erase data.scanner
          last_scan_options := mapUpdate
            (mapUpdate st.last_scan_options data.scanner
              ({ data with filename := frontname ++ "_backside.pdf" }))
            data.scanner ({ data with filename := frontname ++ "_backside.pdf" })
          last_scan_filenames := mapPop
            (mapUpdate st.last_scan_filenames data.scanner
              (frontname ++ "_backside.pdf")) data.scanner
          files := mapPop
            (mapUpdate st.files (frontname ++ "_backside.pdf") back)
            (frontname ++ "_backside.pdf") },
        .ok ()) := by
  have hbname := targetName_backside frontname hslash now
  have hne : frontname ≠ frontname ++ "_backside.pdf" :=
    fun he => backside_name_ne frontname he.symm
  simp only [add_backside, hfile]
  set data' : ScanOptions :=
    { data with filename := frontname ++ "_backside.pdf" } with hdata'
  set st1 : ServerState :=
    { st with last_scan_options :=
        mapUpdate st.last_scan_options data.scanner data' } with hst1
  rw [perform_scan_pages data' now back st1 hback]
  dsimp only
  rw [hbname]
  rw [mapUpdate_ne _ _ _ _ hne, hfront, mapUpdate_self]
  dsimp only
  rw [if_pos hlen]

/-- After any backside attempt that found a pending frontside, the stored
request object's `filename` field is the derived backside name — whatever the
device then did (error, empty feeder, merge, or mismatch) — and the entry is
never removed. -/
theorem add_backside_last_options (data : ScanOptions) (now : DateTime)
    (dev : DeviceOutcome) (st : ServerState) (frontname : String)
    (hfile : st.last_scan_filenames data.scanner = some frontname) :
    (add_backside data now dev st).1.last_scan_options data.scanner
      = some ({ data with filename := frontname ++ "_backside.pdf" }) := by
  cases dev with
  | fail =>
    simp only [add_backside, hfile]
    rw [perform_scan_fail]
    dsimp only
    rw [mapUpdate_self]
  | ok pages =>
    rcases pages with _ | ⟨p, ps⟩
    · simp only [add_backside, hfile]
      rw [perform_scan_zero]
      dsimp only
      rw [mapUpdate_self]
    · simp only [add_backside, hfile]
      set data' : ScanOptions :=
        { data with filename := frontname ++ "_backside.pdf" } with hdata'
      set st1 : ServerState :=
        { st with last_scan_options :=
            mapUpdate st.last_scan_options data.scanner data' } with hst1
      rw [perform_scan_pages data' now (p :: ps) st1 (by simp)]
      dsimp only
      set tname := targetName data'.filename now with htname
      rcases hF : mapUpdate st.files tname (p :: ps) frontname with _ | front
        <;> rcases hB : mapUpdate st.files tname (p :: ps) tname with _ | back
        <;> dsimp only
      · rw [mapUpdate_self]
      · rw [mapUpdate_self]
      · rw [mapUpdate_self]
      · by_cases hL : front.length ≠ back.length
        · rw [if_pos hL]
          dsimp only
          rw [mapUpdate_self]
        · rw [if_neg hL]
          dsimp only
          rw [mapUpdate_self]

/-- When the base name's suffix is not `.pdf`, the derivation appends `.pdf`
to the whole base name (append, never replace). -/
theorem targetNameL_append_pdf (f : List Char) (now : DateTime)
    (h : pySuffixL (targetBase f now) ≠ ".pdf".data) :
    targetNameL f now = targetBase f now ++ ".pdf".data := by
  unfold targetNameL
  rw [if_neg h, pyWithSuffixL_append]

/-- The derived target name never contains a directory separator. -/
theorem targetNameL_noSlash (f : List Char) (now : DateTime) :
    '/' ∉ targetNameL f now := by
  unfold targetNameL
  by_cases h : pySuffixL (targetBase f now) = ".pdf".data
  · rw [if_pos h]
    exact noSlash_resolveNameL _
  · rw [if_neg h, pyWithSuffixL_append]
    intro hm
    rcases List.mem_append.mp hm with h1 | h1
    · exact noSlash_resolveNameL _ h1
    · revert h1; decide

/-! ### Witness fixtures -/

/-- Timestamp used by witnesses: 2024-01-02T03:04:05. -/
def t0 : DateTime := ⟨2024, 1, 2, 3, 4, 5⟩

/-- Request used by witnesses. -/
def dataW : ScanOptions := ⟨"dev", 300, "ADF", "Gray", "front"⟩

/-- Empty initial server state (all of `state.py`'s globals at their module
defaults, empty scan directory). -/
def st0 : ServerState :=
  ⟨fun _ => none, ∅, false, ∅, fun _ => none, fun _ => none, fun _ => none⟩

/-- Witness state: device `"dev"` is registered and holds a pending frontside
`"front.pdf"` whose document has pages `[1, 2, 3]`. -/
def stWitness : ServerState where
  scanners := fun k => if k = "dev" then some ⟨"dev", "v", "m", "t"⟩ else none
  isBusy := ∅
  scan_list_update := false
  has_front := {"dev"}
  last_scan_options := fun k => if k = "dev" then some dataW else none
  last_scan_filenames := fun k => if k = "dev" then some "front.pdf" else none
  files := fun k => if k = "front.pdf" then some [1, 2, 3] else none

/-! ### Claim theorems -/

/-- **C1** Duplex merge order: after a successful backside scan with matching
page count `N`, the merged document saved over the original frontside path
consists, for each `n < N`, of frontside page `n` followed by backside page
`N-1-n`; in particular `[F0,F1,F2]` merged with `[B0,B1,B2]` gives
`[F0,B2,F1,B1,F2,B0]`; the backside file is deleted afterwards. -/
theorem duplex_merge_order (data : ScanOptions) (now : DateTime)
    (st : ServerState) (frontname : String) (front back : List Page)
    (hfile : st.last_scan_filenames data.scanner = some frontname)
    (hslash : '/' ∉ frontname.data)
    (hfront : st.files frontname = some front)
    (hback : back ≠ [])
    (hlen : front.length = back.length) :
    (add_backside data now (.ok back) st).1.files frontname
        = some (mergePages front back)
    ∧ (∀ i, i < front.length →
        (mergePages front back)[2 * i]? = front[i]?
          ∧ (mergePages front back)[2 * i + 1]? = back[back.length - 1 - i]?)
    ∧ (∀ f0 f1 f2 b0 b1 b2 : Page,
        mergePages [f0, f1, f2] [b0, b1, b2] = [f0, b2, f1, b1, f2, b0])
    ∧ (add_backside data now (.ok back) st).1.files
        (frontname ++ "_backside.pdf") = none
    ∧ (add_backside data now (.ok back) st).2 = .ok () := by
  have hne : frontname ≠ frontname ++ "_backside.pdf" :=
    fun he => backside_name_ne frontname he.symm
  have heval := add_backside_eval_merge data now st frontname front back
    hfile hslash hfront hback hlen
  refine ⟨?_, ?_, ?_, ?_, ?_⟩
  · rw [heval]
    dsimp only
    rw [mapPop_ne _ _ _ hne, mapUpdate_self]
  · exact fun i hi => mergePages_getElem? front back hlen i hi
  · intro f0 f1 f2 b0 b1 b2; rfl
  · rw [heval]
    dsimp only
    rw [mapPop_self]
  · rw [heval]

/-- **C1 witness**: concrete merge of `[1,2,3]` with backside `[11,12,13]` on
`stWitness` produces `[1,13,2,12,3,11]` at the frontside path. -/
theorem duplex_merge_order_witness :
    (add_backside dataW t0 (.ok [11, 12, 13]) stWitness).1.files "front.pdf"
      = some [1, 13, 2, 12, 3, 11] := by
  have h := duplex_merge_order dataW t0 stWitness "front.pdf" [1, 2, 3]
    [11, 12, 13] rfl (by decide) rfl (by decide) rfl
  rw [h.1]
  rfl

/-- **C2** Page-count mismatch during duplex merge: with differing counts the
merge is skipped, the frontside file keeps its exact pre-merge content, the
backside file is deleted, `has_front` and `last_scan_filenames` are cleared
for the device, and no exception escapes. -/
theorem page_count_mismatch_soft_failure (data : ScanOptions) (now : DateTime)
    (st : ServerState) (frontname : String) (front back : List Page)
    (hfile : st.last_scan_filenames data.scanner = some frontname)
    (hslash : '/' ∉ frontname.data)
    (hfront : st.files frontname = some front)
    (hback : back ≠ [])
    (hlen : front.length ≠ back.length) :
    (add_backside data now (.ok back) st).1.files frontname = some front
    ∧ (add_backside data now (.ok back) st).1.files
        (frontname ++ "_backside.pdf") = none
    ∧ data.scanner ∉ (add_backside data now (.ok back) st).1.has_front
    ∧ (add_backside data now (.ok back) st).1.last_scan_filenames data.scanner
        = none
    ∧ (add_backside data now (.ok back) st).2 = .ok () := by
  have hne : frontname ≠ frontname ++ "_backside.pdf" :=
    fun he => backside_name_ne frontname he.symm
  have heval := add_backside_eval_mismatch data now st frontname front back
    hfile hslash hfront hback hlen
  refine ⟨?_, ?_, ?_, ?_, ?_⟩
  · rw [heval]
    dsimp only
    rw [mapPop_ne _ _ _ hne, mapUpdate_ne _ _ _ _ hne, hfront]
  · rw [heval]
    dsimp only
    rw [mapPop_self]
  · rw [heval]
    exact Finset.not_mem_erase _ _
  · rw [heval]
    dsimp only
    rw [mapPop_self]
  · rw [heval]

/-- Witness state for the mismatch path: like `stWitness` but the pending
frontside document has two pages. -/
def stMismatch : ServerState :=
  { stWitness with files := fun k => if k = "front.pdf" then some [1, 2] else none }

/-- **C2 witness**: a two-page frontside `[1,2]` against a three-page backside
`[11,12,13]` leaves `"front.pdf"` byte-identical and deletes the backside. -/
theorem page_count_mismatch_soft_failure_witness :
    (add_backside dataW t0 (.ok [11, 12, 13]) stMismatch).1.files "front.pdf"
      = some [1, 2]
    ∧ (add_backside dataW t0 (.ok [11, 12, 13]) stMismatch).1.files
        "front.pdf_backside.pdf" = none :=
  ⟨(page_count_mismatch_soft_failure dataW t0 stMismatch "front.pdf" [1, 2]
      [11, 12, 13] rfl (by decide) rfl (by decide) (by decide)).1,
    (page_count_mismatch_soft_failure dataW t0 stMismatch "front.pdf" [1, 2]
      [11, 12, 13] rfl (by decide) rfl (by decide) (by decide)).2.1⟩

/-- **C3** Mid-acquisition failure atomicity: when the device errors partway
through acquisition, `perform_scan` writes no file and leaves `has_front`,
`last_scan_filenames` and `last_scan_options` exactly as they were; the
error propagates as the scan failure. -/
theorem scan_failure_atomicity (data : ScanOptions) (now : DateTime)
    (st : ServerState) :
    (perform_scan data now .fail st).1.files = st.files
    ∧ (perform_scan data now .fail st).1.has_front = st.has_front
    ∧ (perform_scan data now .fail st).1.last_scan_filenames
        = st.last_scan_filenames
    ∧ (perform_scan data now .fail st).1.last_scan_options
        = st.last_scan_options
    ∧ (perform_scan data now .fail st).2 = .error .scanFailed :=
  ⟨rfl, rfl, rfl, rfl, rfl⟩

/-- **C4** Busy-flag discipline: the wrapped function always runs in a state
where the device is busy (`busyEnter`), `busy_device` is exactly that state
transformation followed by an unconditional erase, the device is never busy
after `busy_device` returns — whatever the wrapped function did or raised —
and in particular after any `perform_scan` (success, empty feeder, or device
failure) the device is not in the busy set. -/
theorem busy_flag_discipline (d : String) (st : ServerState)
    (f : ServerState → ServerState × Except Err (Option String)) :
    d ∈ (busyEnter d st).isBusy
    ∧ busy_device d f st
        = ({ (f (busyEnter d st)).1 with
              isBusy := (f (busyEnter d st)).1.isBusy.erase d },
            (f (busyEnter d st)).2)
    ∧ d ∉ (busy_device d f st).1.isBusy
    ∧ (∀ (data : ScanOptions) (now : DateTime) (dev : DeviceOutcome)
        (st' : ServerState),
        data.scanner ∉ (perform_scan data now dev st').1.isBusy) := by
  refine ⟨Finset.mem_insert_self d st.isBusy, rfl, Finset.not_mem_erase d _, ?_⟩
  intro data now dev st'
  cases dev with
  | fail =>
    rw [perform_scan_fail]
    exact Finset.not_mem_erase _ _
  | ok pages =>
    rcases pages with _ | ⟨p, ps⟩
    · rw [perform_scan_zero]
      exact Finset.not_mem_erase _ _
    · rw [perform_scan_pages data now (p :: ps) st' (by simp)]
      exact Finset.not_mem_erase _ _

/-- **C5** Target filename derivation: empty request filename yields the
timestamped default; `"report"` yields `"report.pdf"`; `"report.PDF"` yields
`"report.PDF.pdf"` (append, never replace); the result never contains a
directory separator; and in general a base name without `.pdf` suffix gets
`.pdf` appended to the whole name while a base name with `.pdf` suffix is kept
as is. -/
theorem target_filename_derivation :
    targetName "" t0 = "Scan_2024-01-02_03_04_05.pdf"
    ∧ (∀ now, targetName "report" now = "report.pdf")
    ∧ (∀ now, targetName "report.PDF" now = "report.PDF.pdf")
    ∧ (∀ (f : String) (now : DateTime), '/' ∉ (targetName f now).data)
    ∧ (∀ (f : String) (now : DateTime),
        pySuffixL (targetBase f.data now) ≠ ".pdf".data →
          (targetName f now).data = targetBase f.data now ++ ".pdf".data)
    ∧ (∀ (f : String) (now : DateTime),
        pySuffixL (targetBase f.data now) = ".pdf".data →
          (targetName f now).data = targetBase f.data now) := by
  refine ⟨by decide, fun now => rfl, fun now => rfl, ?_, ?_, ?_⟩
  · intro f now
    exact targetNameL_noSlash f.data now
  · intro f now h
    show targetNameL f.data now = _
    exact targetNameL_append_pdf f.data now h
  · intro f now h
    show targetNameL f.data now = _
    unfold targetNameL
    rw [if_pos h]

/-- **C5 witness**: `"x.txt"` has no `.pdf` suffix, and the derivation appends
`.pdf` after the existing suffix rather than replacing it. -/
theorem target_filename_derivation_witness :
    pySuffixL (targetBase "x.txt".data t0) ≠ ".pdf".data
    ∧ (targetName "x.txt" t0).data = targetBase "x.txt".data t0 ++ ".pdf".data :=
  ⟨by decide,
    target_filename_derivation.2.2.2.2.1 "x.txt" t0 (by decide)⟩

/-- **C6 counterexample**: the claim "the refreshing flag is set back to false
on exit on all paths, including when the refresh fails" is false — starting
from `st0` (flag false), a refresh that raises leaves the flag true, because
`update_scanlist` has no `try/finally` around `update_scanners`. -/
theorem refreshing_flag_cex :
    st0.scan_list_update = false
    ∧ (update_scanlist (.error .refreshFailed) st0).1.scan_list_update = true
    ∧ (update_scanlist (.error .refreshFailed) st0).2
        = .error .refreshFailed :=
  ⟨rfl, rfl, rfl⟩

/-- **C6 (amended)** Refreshing-flag guarantee: the flag is true for the
duration of the refresh (the inner `update_scanners` always runs on
`refreshingState st`), and is set back to false when the refresh returns
normally — with the registry replaced wholesale; but when the refresh raises,
the error propagates and the flag remains true. -/
theorem refreshing_flag_amended (st : ServerState)
    (m : String → Option SaneScanner) (e : Err) :
    (refreshingState st).scan_list_update = true
    ∧ update_scanlist (.ok m) st
        = ({ st with scanners := m, scan_list_update := false }, .ok ())
    ∧ update_scanlist (.error e) st
        = ({ st with scan_list_update := true }, .error e) :=
  ⟨rfl, rfl, rfl⟩

/-- **C7** Zero-page scan boundary: an acquisition that yields no pages writes
no file, returns an empty result without error, and leaves `has_front`,
`last_scan_filenames` and `last_scan_options` untouched; an acquisition that
yields at least one page writes the assembled document under the derived
target name and returns that relative path. -/
theorem zero_page_scan_boundary (data : ScanOptions) (now : DateTime)
    (st : ServerState) :
    ((perform_scan data now (.ok []) st).1.files = st.files
      ∧ (perform_scan data now (.ok []) st).1.has_front = st.has_front
      ∧ (perform_scan data now (.ok []) st).1.last_scan_filenames
          = st.last_scan_filenames
      ∧ (perform_scan data now (.ok []) st).1.last_scan_options
          = st.last_scan_options
      ∧ (perform_scan data now (.ok []) st).2 = .ok none)
    ∧ ∀ pages : List Page, pages ≠ [] →
        (perform_scan data now (.ok pages) st).1.files
            (targetName data.filename now) = some pages
        ∧ (perform_scan data now (.ok pages) st).2
            = .ok (some (targetName data.filename now)) := by
  refine ⟨⟨rfl, rfl, rfl, rfl, rfl⟩, ?_⟩
  intro pages hp
  rw [perform_scan_pages data now pages st hp]
  dsimp only
  rw [mapUpdate_self]
  exact ⟨rfl, rfl⟩

/-- **C7 witness**: a one-page acquisition on `st0` writes `[7]` under the
derived name and returns it. -/
theorem zero_page_scan_boundary_witness :
    (perform_scan dataW t0 (.ok [7]) st0).1.files (targetName "front" t0)
      = some [7] :=
  ((zero_page_scan_boundary dataW t0 st0).2 [7] (by decide)).1

/-- **C8 counterexample**: the claim that the done action removes the
`pendingFrontsidePath` record is false — on `stWitness` (device
`"dev"` awaiting a backside) `reset_front` clears `has_front` but the
`last_scan_filenames` entry survives. -/
theorem markdone_cex :
    "dev" ∈ stWitness.has_front
    ∧ "dev" ∉ (reset_front "dev" stWitness).1.has_front
    ∧ (reset_front "dev" stWitness).1.last_scan_filenames "dev"
        = some "front.pdf" := by
  refine ⟨by decide, ?_, rfl⟩
  show "dev" ∉ stWitness.has_front.erase "dev"
  exact Finset.not_mem_erase _ _

/-- **C8 (amended)** markDone clears `has_front` only: for a registered device
in the awaiting-backside state, the done action removes the device from
`has_front` without merging or touching any file, but the
`last_scan_filenames` record (and the stored request) is retained, not
removed. -/
theorem markdone_amended (device : String) (st : ServerState)
    (s : SaneScanner) (hreg : st.scanners device = some s)
    (_hfrontState : s.device_name ∈ st.has_front) :
    reset_front device st
      = ({ st with has_front := st.has_front.erase s.device_name }, .ok ())
    ∧ s.device_name ∉ (reset_front device st).1.has_front
    ∧ (reset_front device st).1.last_scan_filenames = st.last_scan_filenames
    ∧ (reset_front device st).1.last_scan_options = st.last_scan_options
    ∧ (reset_front device st).1.files = st.files := by
  have hred : reset_front device st
      = ({ st with has_front := st.has_front.erase s.device_name }, .ok ()) := by
    simp only [reset_front, hreg]
  refine ⟨hred, ?_, ?_, ?_, ?_⟩
  · rw [hred]
    exact Finset.not_mem_erase _ _
  · rw [hred]
  · rw [hred]
  · rw [hred]

/-- **C8 witness**: concrete done action on `stWitness`. -/
theorem markdone_amended_witness :
    (reset_front "dev" stWitness).1.last_scan_filenames
      = stWitness.last_scan_filenames :=
  (markdone_amended "dev" stWitness ⟨"dev", "v", "m", "t"⟩ rfl
    (by decide)).2.2.1

/-- **C9** Hardware exclusivity: in every reachable interleaving of handler
threads — each running the `acquire state.sane_lock; hardware work; release`
shape shared by `update_scanners` and `perform_scan` — at most one thread has
a hardware operation in flight at any time, whatever devices the operations
target: the single process-wide lock serializes them all. -/
theorem hardware_lock_exclusivity (s : HwLock.SysState)
    (h : HwLock.Reachable s) (t u : HwLock.Tid)
    (ht : HwLock.inHardware s t) (hu : HwLock.inHardware s u) : t = u := by
  have hinv := HwLock.lockInv_reachable h
  have h1 := hinv t (Or.inl ht)
  have h2 := hinv u (Or.inl hu)
  exact Option.some.inj (h1.symm.trans h2)

/-- **C9 witness**: the state reached from `init` after thread `0` acquires
the lock is reachable and has thread `0` in its hardware section. -/
theorem hardware_lock_exclusivity_witness : (0 : HwLock.Tid) = 0 :=
  hardware_lock_exclusivity
    ⟨fun u => if u = 0 then 1 else HwLock.init.pc u, some 0⟩
    (Relation.ReflTransGen.single (HwLock.Step.acquire HwLock.init 0 rfl rfl))
    0 0 (by simp [HwLock.inHardware]) (by simp [HwLock.inHardware])

/-- **C10** (implicit) A backside scan mutates the stored request in place:
`add_backside` receives the very `ScanOptions` object stored in
`last_scan_options`, and `data.filename = f"{frontside_file.name}_backside.pdf"`
rewrites that stored object's `filename` — its `scanner`, `resolution`,
`source` and `mode` fields untouched — before the scan even runs, so after any
backside attempt (device failure, empty feeder, merge, or mismatch) the stored
request's filename is the derived backside name; and no operation removes the
`last_scan_options` entry: `add_backside` leaves it set and `reset_front`
leaves the whole table unchanged. -/
theorem backside_mutates_request (data : ScanOptions) (now : DateTime)
    (dev : DeviceOutcome) (st : ServerState) (frontname : String)
    (hfile : st.last_scan_filenames data.scanner = some frontname) :
    (add_backside data now dev st).1.last_scan_options data.scanner
        = some ({ data with filename := frontname ++ "_backside.pdf" })
    ∧ (∀ opts : ScanOptions,
        (add_backside data now dev st).1.last_scan_options data.scanner
            = some opts →
          opts.scanner = data.scanner ∧ opts.resolution = data.resolution
            ∧ opts.source = data.source ∧ opts.mode = data.mode
            ∧ opts.filename = frontname ++ "_backside.pdf")
    ∧ (∀ (device' : String) (st' : ServerState),
        (reset_front device' st').1.last_scan_options
          = st'.last_scan_options) := by
  have hmain := add_backside_last_options data now dev st frontname hfile
  refine ⟨hmain, ?_, ?_⟩
  · intro opts hopts
    rw [hmain] at hopts
    cases Option.some.inj hopts
    exact ⟨rfl, rfl, rfl, rfl, rfl⟩
  · intro device' st'
    rcases h : st'.scanners device' with _ | s <;> simp [reset_front, h]

/-- **C10 witness**: a failed backside attempt on `stWitness` still leaves the
stored request's filename mutated to `"front.pdf_backside.pdf"`. -/
theorem backside_mutates_request_witness :
    (add_backside dataW t0 .fail stWitness).1.last_scan_options "dev"
      = some ({ dataW with filename := "front.pdf_backside.pdf" }) :=
  (backside_mutates_request dataW t0 .fail stWitness "front.pdf" rfl).1
